import Mathlib

/-!
Verification of the command interpreter of `src/atecc608a/main.c`
(mbed-os-example-atecc608a).

The interpreter reads one whitespace-delimited token per iteration
(`scanf("%79s", command)`), classifies it by exact string equality or by
`strncmp` against the first `strlen(keyword) - 1` characters of a keyword,
extracts numeric slot arguments with `strchr`/`strrchr`/`atoi`, range-checks
them against the closed interval [0,15], and dispatches to external driver
operations.  The embedding below models the token as a `List Char` (the
contents of the C `char` buffer up to the terminator), the two global
session slot variables as a `Sess` record, and every external driver call
as an element of an `ExtCall` trace.  `atoi` results are cast to
`uint16_t` by reduction modulo 2^16, exactly as the C casts do.

Paths of the original program that dereference `arg + 1` when
`arg = strchr(command, '=')` returned `NULL` (possible in the
`generate_public`, `private_slot` and `public_slot` branches, which -
unlike `generate_private` - lack the `arg != NULL` guard) are undefined
behaviour in C; the model returns `none` there.
-/

/-- C `isspace` on the default locale: space and the characters 9..13. -/
def isSpaceC (c : Char) : Bool := c.toNat = 32 || (9 ≤ c.toNat && c.toNat ≤ 13)

/-- C `isdigit`: ASCII codes 48..57. -/
def isDigitC (c : Char) : Bool := 48 ≤ c.toNat && c.toNat ≤ 57

/-- The digit-consuming loop of `atoi`: accumulate decimal digits until the
first non-digit character. -/
def atoiDigits : Nat → List Char → Nat
  | acc, [] => acc
  | acc, c :: cs => if isDigitC c then atoiDigits (10 * acc + (c.toNat - 48)) cs else acc

/-- Value of a digit string, as computed by the `atoi` digit loop. -/
def digitsVal (ds : List Char) : Nat := atoiDigits 0 ds

/-- C `atoi`: skip leading whitespace, optional sign, then decimal digits;
an empty digit sequence yields 0. -/
def atoiList (cs : List Char) : Int :=
  match cs.dropWhile isSpaceC with
  | [] => 0
  | c :: rest =>
    if c = '-' then - (atoiDigits 0 rest : Int)
    else if c = '+' then (atoiDigits 0 rest : Int)
    else (atoiDigits 0 (c :: rest) : Int)

/-- The C cast `(uint16_t) i`: reduction modulo 2^16. -/
def castU16 (i : Int) : Nat := (i % 65536).toNat

/-- `strchr(s, ch)` followed by `+ 1`: the suffix after the first
occurrence of `ch`, or `none` when `ch` does not occur. -/
def afterFirst (ch : Char) : List Char → Option (List Char)
  | [] => none
  | c :: cs => if c = ch then some cs else afterFirst ch cs

/-- `strrchr(s, ch)` followed by `+ 1`: the suffix after the last
occurrence of `ch`, or `none` when `ch` does not occur. -/
def afterLast (ch : Char) : List Char → Option (List Char)
  | [] => none
  | c :: cs =>
    match afterLast ch cs with
    | some r => some r
    | none => if c = ch then some cs else none

/-- `scanf("%1s", ...)`: the first non-whitespace character of the
remaining input, if any. -/
def scan1s (resp : List Char) : Option Char := resp.find? (fun c => !(isSpaceC c))

/-- `prompt_confirmation` applied to the single character read by
`scanf("%1s", confirmation)`: accept exactly `y` and `Y`. -/
def prompt_confirmation (c : Char) : Bool := c = 'y' || c = 'Y'

/-- `prompt_confirmation` as a function of the pending input text: read one
non-whitespace character, then test it. -/
def prompt_confirmation_run (resp : List Char) : Option Bool :=
  (scan1s resp).map prompt_confirmation

/-- One external driver call made by the interpreter, with the slot
arguments it was given.  `runTests` stands for the fixed `run_tests`
sequence, which uses the two session slots; `printInfo` stands for the
read-only `print_device_info` sequence. -/
inductive ExtCall where
  | pGenerate (slot : Nat)
  | pExport (slot : Nat)
  | pImport (slot : Nat)
  | writeLockConfig
  | lockDataZone
  | runTests (privSlot pubSlot : Nat)
  | printInfo
deriving Repr, DecidableEq

/-- Status codes returned by the external driver operations; `0` is
`PSA_SUCCESS`. -/
structure Driver where
  generateStatus : Nat → Int
  exportStatus : Nat → Int
  importStatus : Nat → Int
  writeLockStatus : Int
  lockDataStatus : Int

/-- The two global session variables
`atecc608a_private_key_slot` / `atecc608a_public_key_slot`. -/
structure Sess where
  privSlot : Nat
  pubSlot : Nat
deriving Repr, DecidableEq

/-- Initial session state: `psa_key_slot_number_t atecc608a_private_key_slot = 0;`
and `psa_key_slot_number_t atecc608a_public_key_slot = 9;`. -/
def sessInit : Sess := ⟨0, 9⟩

/-- Both session slots lie in the closed range [0,15]. -/
def SessInv (s : Sess) : Prop := s.privSlot ≤ 15 ∧ s.pubSlot ≤ 15

/-- Result of one `interactive_loop` iteration: the returned sentinel, the
session state on return, and the external calls made. -/
structure LoopResult where
  exitLoop : Bool
  sess : Sess
  calls : List ExtCall
deriving Repr, DecidableEq

/-- The command classification of `interactive_loop`, one constructor per
branch of its `if`/`else if` chain. -/
inductive Cmd where
  | cInfo
  | cExit
  | cTest
  | cGeneratePrivate
  | cGeneratePublic
  | cWriteLockConfig
  | cLockData
  | cPrivateSlot
  | cPublicSlot
  | cUnrecognized
deriving Repr, DecidableEq

/-- The `if`/`else if` chain of `interactive_loop`: `strcmp` for the
argument-less keywords, `strncmp(command, kw, strlen(kw) - 1)` for the
four argument-taking keywords. -/
def dispatch (command : List Char) : Cmd :=
  if command = "info".toList then Cmd.cInfo
  else if command = "exit".toList then Cmd.cExit
  else if command = "test".toList then Cmd.cTest
  else if command.take 15 = "generate_private".toList.take 15 then Cmd.cGeneratePrivate
  else if command.take 14 = "generate_public".toList.take 14 then Cmd.cGeneratePublic
  else if command = "write_lock_config".toList then Cmd.cWriteLockConfig
  else if command = "lock_data".toList then Cmd.cLockData
  else if command.take 11 = "private_slot".toList.take 11 then Cmd.cPrivateSlot
  else if command.take 10 = "public_slot".toList.take 10 then Cmd.cPublicSlot
  else Cmd.cUnrecognized

/-- Body of the `generate_private` branch: an argument is read only when
`len > strlen("generate_private=0") - 1` and `arg != NULL`, otherwise the
default slot 0 is used; slots above 15 are rejected before the driver
`p_generate` call. -/
def genPrivateBody (command : List Char) (s : Sess) : Option LoopResult :=
  let slot : Nat :=
    match afterFirst '=' command with
    | some t => if 17 < command.length then castU16 (atoiList t) else 0
    | none => 0
  if 15 < slot then some ⟨false, s, []⟩
  else some ⟨false, s, [ExtCall.pGenerate slot]⟩

/-- Body of the `generate_public` branch: lines no longer than
`strlen("generate_public=0_9") - 1` are rejected; the private slot is
parsed after the first `=`, the public slot after the last `_`; slots
above 15 are rejected; otherwise `p_export` is called and, when it
succeeds, `p_import`.  A missing `=` makes the C code read from
`NULL + 1`: undefined, modelled as `none`. -/
def genPublicBody (drv : Driver) (command : List Char) (s : Sess) : Option LoopResult :=
  if command.length ≤ 18 then some ⟨false, s, []⟩
  else
    match afterFirst '=' command, afterLast '_' command with
    | some t, some u =>
      let slot_private := castU16 (atoiList t)
      let slot_public := castU16 (atoiList u)
      if 15 < slot_private ∨ 15 < slot_public then some ⟨false, s, []⟩
      else if drv.exportStatus slot_private = 0 then
        some ⟨false, s, [ExtCall.pExport slot_private, ExtCall.pImport slot_public]⟩
      else some ⟨false, s, [ExtCall.pExport slot_private]⟩
    | _, _ => none

/-- Body of the `private_slot` branch: lines no longer than
`strlen("private_slot=0") - 1` are rejected; slots above 15 are rejected;
otherwise `atecc608a_private_key_slot` is assigned.  A missing `=` is the
same undefined `NULL + 1` read as in `generate_public`. -/
def privateSlotBody (command : List Char) (s : Sess) : Option LoopResult :=
  if command.length ≤ 13 then some ⟨false, s, []⟩
  else
    match afterFirst '=' command with
    | none => none
    | some t =>
      let slot := castU16 (atoiList t)
      if 15 < slot then some ⟨false, s, []⟩
      else some ⟨false, ⟨slot, s.pubSlot⟩, []⟩

/-- Body of the `public_slot` branch, symmetric to `privateSlotBody` with
the length bound `strlen("public_slot=9") - 1`. -/
def publicSlotBody (command : List Char) (s : Sess) : Option LoopResult :=
  if command.length ≤ 12 then some ⟨false, s, []⟩
  else
    match afterFirst '=' command with
    | none => none
    | some t =>
      let slot := castU16 (atoiList t)
      if 15 < slot then some ⟨false, s, []⟩
      else some ⟨false, ⟨s.privSlot, slot⟩, []⟩

/-- One iteration of `interactive_loop`: classify the token read by
`scanf("%79s", command)`, run the selected branch.  `conf` is the
character the confirmation prompt would read.  Only `exit` returns the
`true` sentinel; `none` marks the undefined `NULL + 1` reads. -/
def interactive_loop (drv : Driver) (command : List Char) (conf : Char) (s : Sess) :
    Option LoopResult :=
  match dispatch command with
  | Cmd.cInfo => some ⟨false, s, [ExtCall.printInfo]⟩
  | Cmd.cExit => some ⟨true, s, []⟩
  | Cmd.cTest => some ⟨false, s, [ExtCall.runTests s.privSlot s.pubSlot]⟩
  | Cmd.cGeneratePrivate => genPrivateBody command s
  | Cmd.cGeneratePublic => genPublicBody drv command s
  | Cmd.cWriteLockConfig =>
    if prompt_confirmation conf then some ⟨false, s, [ExtCall.writeLockConfig]⟩
    else some ⟨false, s, []⟩
  | Cmd.cLockData =>
    if prompt_confirmation conf then some ⟨false, s, [ExtCall.lockDataZone]⟩
    else some ⟨false, s, []⟩
  | Cmd.cPrivateSlot => privateSlotBody command s
  | Cmd.cPublicSlot => publicSlotBody command s
  | Cmd.cUnrecognized => some ⟨false, s, []⟩

/-- A sequence of `interactive_loop` iterations starting from session
state `s`, one `(command, confirmation)` pair per iteration, stopping at
the `exit` sentinel; the session state reached, or `none` on an
undefined-behaviour iteration. -/
def runSession (drv : Driver) : List (List Char × Char) → Sess → Option Sess
  | [], s => some s
  | (cmd, conf) :: rest, s =>
    match interactive_loop drv cmd conf s with
    | none => none
    | some r => if r.exitLoop then some r.sess else runSession drv rest r.sess

/-- The `while (!exit_application)` loop of `main`: returns the process
status (always `PSA_SUCCESS = 0`, since the loop does not touch `main`'s
`status` variable) and the number of iterations executed, or `none` when
the input is exhausted without `exit` or an iteration is undefined. -/
def mainLoop (drv : Driver) : List (List Char × Char) → Sess → Nat → Option (Int × Nat)
  | [], _, _ => none
  | (cmd, conf) :: rest, s, k =>
    match interactive_loop drv cmd conf s with
    | none => none
    | some r => if r.exitLoop then some (0, k + 1) else mainLoop drv rest r.sess (k + 1)

/-- Modelled from the spec: `main` of `src/atecc608a/main.c` guards
`psa_crypto_init()` with `ASSERT_SUCCESS_PSA`, a macro defined in the
driver utility header `atecc608a_utils.h`, which is not part of this
repository's sources; per the spec ("process returns the status code of
the last top-level crypto-framework initialization call") and the local
`ASSERT_STATUS_PSA` pattern, a non-zero initialization status becomes
`main`'s `status` and control jumps to `exit` before the loop, while a
zero status leaves `status = PSA_SUCCESS` and enters the loop (the
`run_tests()` result is discarded).  Result: final `status` of `main` and
the number of loop iterations entered. -/
def mainRun (drv : Driver) (initStatus : Int) (inputs : List (List Char × Char))
    (s : Sess) : Option (Int × Nat) :=
  if initStatus ≠ 0 then some (initStatus, 0)
  else mainLoop drv inputs s 0

/-- A driver whose operations all succeed. -/
def okDriver : Driver := ⟨fun _ => 0, fun _ => 0, fun _ => 0, 0, 0⟩

/-- Every slot argument carried by an external call is in [0,15]. -/
def callSlotOK : ExtCall → Prop
  | ExtCall.pGenerate n => n ≤ 15
  | ExtCall.pExport n => n ≤ 15
  | ExtCall.pImport n => n ≤ 15
  | ExtCall.runTests a b => a ≤ 15 ∧ b ≤ 15
  | _ => True

/-! ### Helper lemmas about the parsing primitives -/

lemma ne_of_length_ne {l1 l2 : List Char} (h : l1.length ≠ l2.length) : l1 ≠ l2 := by
  intro he
  exact h (he ▸ rfl)

lemma cons_ne_of_head_ne {a b : Char} {l1 l2 : List Char} (hab : a ≠ b) :
    a :: l1 ≠ b :: l2 := by
  intro h
  exact hab (List.cons.inj h).1

lemma take_cons_ne {a b : Char} {l1 l2 : List Char} {n : Nat} (hab : a ≠ b) (hn : 0 < n) :
    (a :: l1).take n ≠ (b :: l2).take n := by
  cases n with
  | zero => omega
  | succ m =>
    rw [List.take_succ_cons, List.take_succ_cons]
    exact cons_ne_of_head_ne hab

lemma take_of_take_eq {cmd P : List Char} {m n : Nat} (h : cmd.take m = P) (hnm : n ≤ m) :
    cmd.take n = P.take n := by
  rw [← h, List.take_take, Nat.min_eq_left hnm]

lemma afterFirst_append (ch : Char) (pre t : List Char) (h : ch ∉ pre) :
    afterFirst ch (pre ++ ch :: t) = some t := by
  induction pre with
  | nil => simp [afterFirst]
  | cons c cs ih =>
    have hc : c ≠ ch := by
      intro hc
      exact h (hc ▸ List.mem_cons_self c cs)
    have hcs : ch ∉ cs := fun hm => h (List.mem_cons_of_mem c hm)
    simp only [List.cons_append, afterFirst, if_neg hc]
    exact ih hcs

lemma afterLast_eq_none (ch : Char) (l : List Char) (h : ch ∉ l) :
    afterLast ch l = none := by
  induction l with
  | nil => rfl
  | cons c cs ih =>
    have hc : c ≠ ch := by
      intro hc
      exact h (hc ▸ List.mem_cons_self c cs)
    have hcs : ch ∉ cs := fun hm => h (List.mem_cons_of_mem c hm)
    simp only [afterLast, ih hcs, if_neg hc]

lemma afterLast_append (ch : Char) (pre t : List Char) (h : ch ∉ t) :
    afterLast ch (pre ++ ch :: t) = some t := by
  induction pre with
  | nil =>
    simp [afterLast, afterLast_eq_none ch t h]
  | cons c cs ih =>
    simp only [List.cons_append, afterLast, List.append_eq, ih]

lemma isDigitC_not_space {c : Char} (h : isDigitC c = true) : isSpaceC c = false := by
  simp only [isDigitC, Bool.and_eq_true, decide_eq_true_eq] at h
  simp only [isSpaceC, Bool.or_eq_false_iff, Bool.and_eq_false_iff, decide_eq_false_iff_not]
  omega

lemma isDigitC_ne_dash {c : Char} (h : isDigitC c = true) : c ≠ '-' := by
  intro he
  rw [he] at h
  exact absurd h (by decide)

lemma isDigitC_ne_plus {c : Char} (h : isDigitC c = true) : c ≠ '+' := by
  intro he
  rw [he] at h
  exact absurd h (by decide)

lemma atoiDigits_append_stop {c : Char} (hc : isDigitC c = false) (ds : List Char)
    (h : ∀ d ∈ ds, isDigitC d) (rest : List Char) :
    ∀ acc, atoiDigits acc (ds ++ c :: rest) = atoiDigits acc ds := by
  induction ds with
  | nil =>
    intro acc
    simp [atoiDigits, hc]
  | cons d ds ih =>
    intro acc
    have hd : isDigitC d := h d (List.mem_cons_self d ds)
    have hds : ∀ x ∈ ds, isDigitC x := fun x hx => h x (List.mem_cons_of_mem d hx)
    simp only [List.cons_append, atoiDigits, if_pos hd]
    exact ih hds _

lemma dropWhile_space_digits (ds : List Char) (h : ∀ d ∈ ds, isDigitC d) :
    ds.dropWhile isSpaceC = ds := by
  cases ds with
  | nil => rfl
  | cons d ds =>
    have hd : isDigitC d := h d (List.mem_cons_self d ds)
    simp [List.dropWhile, isDigitC_not_space hd]

lemma atoiList_cons_digit {d : Char} (hd : isDigitC d) (l : List Char) :
    atoiList (d :: l) = (atoiDigits 0 (d :: l) : Int) := by
  simp only [atoiList, List.dropWhile_cons, isDigitC_not_space hd, if_false,
    Bool.false_eq_true, if_neg (isDigitC_ne_dash hd), if_neg (isDigitC_ne_plus hd)]

lemma atoiList_digits (ds : List Char) (hne : ds ≠ []) (h : ∀ d ∈ ds, isDigitC d) :
    atoiList ds = (digitsVal ds : Int) := by
  cases ds with
  | nil => exact absurd rfl hne
  | cons d ds =>
    exact atoiList_cons_digit (h d (List.mem_cons_self d ds)) ds

lemma atoiList_digits_append {c : Char} (hc : isDigitC c = false) (hcs : isSpaceC c = false)
    (hcd : c ≠ '-') (hcp : c ≠ '+') (ds rest : List Char) (h : ∀ d ∈ ds, isDigitC d) :
    atoiList (ds ++ c :: rest) = (digitsVal ds : Int) := by
  cases ds with
  | nil =>
    simp only [List.nil_append, atoiList, List.dropWhile_cons, hcs, Bool.false_eq_true,
      if_false, if_neg hcd, if_neg hcp, atoiDigits, hc, digitsVal]
  | cons d ds =>
    have hd : isDigitC d := h d (List.mem_cons_self d ds)
    rw [List.cons_append, atoiList_cons_digit hd, ← List.cons_append]
    exact congrArg _ (atoiDigits_append_stop hc (d :: ds) h rest 0)

lemma castU16_of_le {n : Nat} (h : n ≤ 65535) : castU16 (n : Int) = n := by
  unfold castU16
  omega

/-! ### Dispatch of the four argument-taking command shapes -/

lemma dispatch_generate_private (t : List Char) :
    dispatch ("generate_private=".toList ++ t) = Cmd.cGeneratePrivate := by
  have hp : ("generate_private=".toList).length = 17 := by decide
  have hlen : ("generate_private=".toList ++ t).length = 17 + t.length := by
    rw [List.length_append, hp]
  have h15 : ("generate_private=".toList ++ t).take 15 = "generate_private".toList.take 15 := by
    rw [List.take_append_of_le_length (by rw [hp]; omega)]
    decide
  unfold dispatch
  rw [if_neg (ne_of_length_ne (by rw [hlen, show ("info".toList).length = 4 from by decide]; omega)),
    if_neg (ne_of_length_ne (by rw [hlen, show ("exit".toList).length = 4 from by decide]; omega)),
    if_neg (ne_of_length_ne (by rw [hlen, show ("test".toList).length = 4 from by decide]; omega)),
    if_pos h15]

lemma dispatch_generate_public (t : List Char) :
    dispatch ("generate_public=".toList ++ t) = Cmd.cGeneratePublic := by
  have hp : ("generate_public=".toList).length = 16 := by decide
  have hlen : ("generate_public=".toList ++ t).length = 16 + t.length := by
    rw [List.length_append, hp]
  have h15 : ("generate_public=".toList ++ t).take 15 ≠ "generate_private".toList.take 15 := by
    rw [List.take_append_of_le_length (by rw [hp]; omega)]
    decide
  have h14 : ("generate_public=".toList ++ t).take 14 = "generate_public".toList.take 14 := by
    rw [List.take_append_of_le_length (by rw [hp]; omega)]
    decide
  unfold dispatch
  rw [if_neg (ne_of_length_ne (by rw [hlen, show ("info".toList).length = 4 from by decide]; omega)),
    if_neg (ne_of_length_ne (by rw [hlen, show ("exit".toList).length = 4 from by decide]; omega)),
    if_neg (ne_of_length_ne (by rw [hlen, show ("test".toList).length = 4 from by decide]; omega)),
    if_neg h15, if_pos h14]

lemma dispatch_private_slot (t : List Char) :
    dispatch ("private_slot=".toList ++ t) = Cmd.cPrivateSlot := by
  have hp : ("private_slot=".toList).length = 13 := by decide
  have hlen : ("private_slot=".toList ++ t).length = 13 + t.length := by
    rw [List.length_append, hp]
  have hcons : "private_slot=".toList ++ t = 'p' :: ("rivate_slot=".toList ++ t) := rfl
  have h15 : ("private_slot=".toList ++ t).take 15 ≠ "generate_private".toList.take 15 := by
    rw [hcons, show "generate_private".toList = 'g' :: "enerate_private".toList from rfl]
    exact take_cons_ne (by decide) (by omega)
  have h14 : ("private_slot=".toList ++ t).take 14 ≠ "generate_public".toList.take 14 := by
    rw [hcons, show "generate_public".toList = 'g' :: "enerate_public".toList from rfl]
    exact take_cons_ne (by decide) (by omega)
  have hwlc : "private_slot=".toList ++ t ≠ "write_lock_config".toList := by
    rw [hcons, show "write_lock_config".toList = 'w' :: "rite_lock_config".toList from rfl]
    exact cons_ne_of_head_ne (by decide)
  have h11 : ("private_slot=".toList ++ t).take 11 = "private_slot".toList.take 11 := by
    rw [List.take_append_of_le_length (by rw [hp]; omega)]
    decide
  unfold dispatch
  rw [if_neg (ne_of_length_ne (by rw [hlen, show ("info".toList).length = 4 from by decide]; omega)),
    if_neg (ne_of_length_ne (by rw [hlen, show ("exit".toList).length = 4 from by decide]; omega)),
    if_neg (ne_of_length_ne (by rw [hlen, show ("test".toList).length = 4 from by decide]; omega)),
    if_neg h15, if_neg h14, if_neg hwlc,
    if_neg (ne_of_length_ne (by rw [hlen, show ("lock_data".toList).length = 9 from by decide]; omega)),
    if_pos h11]

lemma dispatch_public_slot (t : List Char) :
    dispatch ("public_slot=".toList ++ t) = Cmd.cPublicSlot := by
  have hp : ("public_slot=".toList).length = 12 := by decide
  have hlen : ("public_slot=".toList ++ t).length = 12 + t.length := by
    rw [List.length_append, hp]
  have hcons : "public_slot=".toList ++ t = 'p' :: ("ublic_slot=".toList ++ t) := rfl
  have h15 : ("public_slot=".toList ++ t).take 15 ≠ "generate_private".toList.take 15 := by
    rw [hcons, show "generate_private".toList = 'g' :: "enerate_private".toList from rfl]
    exact take_cons_ne (by decide) (by omega)
  have h14 : ("public_slot=".toList ++ t).take 14 ≠ "generate_public".toList.take 14 := by
    rw [hcons, show "generate_public".toList = 'g' :: "enerate_public".toList from rfl]
    exact take_cons_ne (by decide) (by omega)
  have hwlc : "public_slot=".toList ++ t ≠ "write_lock_config".toList := by
    rw [hcons, show "write_lock_config".toList = 'w' :: "rite_lock_config".toList from rfl]
    exact cons_ne_of_head_ne (by decide)
  have h11 : ("public_slot=".toList ++ t).take 11 ≠ "private_slot".toList.take 11 := by
    rw [List.take_append_of_le_length (by rw [hp]; omega)]
    decide
  have h10 : ("public_slot=".toList ++ t).take 10 = "public_slot".toList.take 10 := by
    rw [List.take_append_of_le_length (by rw [hp]; omega)]
    decide
  unfold dispatch
  rw [if_neg (ne_of_length_ne (by rw [hlen, show ("info".toList).length = 4 from by decide]; omega)),
    if_neg (ne_of_length_ne (by rw [hlen, show ("exit".toList).length = 4 from by decide]; omega)),
    if_neg (ne_of_length_ne (by rw [hlen, show ("test".toList).length = 4 from by decide]; omega)),
    if_neg h15, if_neg h14, if_neg hwlc,
    if_neg (ne_of_length_ne (by rw [hlen, show ("lock_data".toList).length = 9 from by decide]; omega)),
    if_neg h11, if_pos h10]

/-! ### Evaluation of the four argument-taking branches -/

lemma interactive_loop_generate_private (drv : Driver) (conf : Char) (s : Sess)
    (t : List Char) (hne : t ≠ []) :
    interactive_loop drv ("generate_private=".toList ++ t) conf s =
      if 15 < castU16 (atoiList t) then some ⟨false, s, []⟩
      else some ⟨false, s, [ExtCall.pGenerate (castU16 (atoiList t))]⟩ := by
  have harg : afterFirst '=' ("generate_private=".toList ++ t) = some t := by
    rw [show "generate_private=".toList ++ t = "generate_private".toList ++ '=' :: t from rfl]
    exact afterFirst_append '=' _ t (by decide)
  have hlen : 17 < ("generate_private=".toList ++ t).length := by
    rw [List.length_append, show ("generate_private=".toList).length = 17 from by decide]
    have := List.length_pos.mpr hne
    omega
  simp only [interactive_loop, dispatch_generate_private, genPrivateBody, harg, if_pos hlen]

lemma interactive_loop_private_slot (drv : Driver) (conf : Char) (s : Sess)
    (t : List Char) (hne : t ≠ []) :
    interactive_loop drv ("private_slot=".toList ++ t) conf s =
      if 15 < castU16 (atoiList t) then some ⟨false, s, []⟩
      else some ⟨false, ⟨castU16 (atoiList t), s.pubSlot⟩, []⟩ := by
  have harg : afterFirst '=' ("private_slot=".toList ++ t) = some t := by
    rw [show "private_slot=".toList ++ t = "private_slot".toList ++ '=' :: t from rfl]
    exact afterFirst_append '=' _ t (by decide)
  have hlen : ¬ ("private_slot=".toList ++ t).length ≤ 13 := by
    rw [List.length_append, show ("private_slot=".toList).length = 13 from by decide]
    have := List.length_pos.mpr hne
    omega
  simp only [interactive_loop, dispatch_private_slot, privateSlotBody, harg, if_neg hlen]

lemma interactive_loop_public_slot (drv : Driver) (conf : Char) (s : Sess)
    (t : List Char) (hne : t ≠ []) :
    interactive_loop drv ("public_slot=".toList ++ t) conf s =
      if 15 < castU16 (atoiList t) then some ⟨false, s, []⟩
      else some ⟨false, ⟨s.privSlot, castU16 (atoiList t)⟩, []⟩ := by
  have harg : afterFirst '=' ("public_slot=".toList ++ t) = some t := by
    rw [show "public_slot=".toList ++ t = "public_slot".toList ++ '=' :: t from rfl]
    exact afterFirst_append '=' _ t (by decide)
  have hlen : ¬ ("public_slot=".toList ++ t).length ≤ 12 := by
    rw [List.length_append, show ("public_slot=".toList).length = 12 from by decide]
    have := List.length_pos.mpr hne
    omega
  simp only [interactive_loop, dispatch_public_slot, publicSlotBody, harg, if_neg hlen]

lemma interactive_loop_generate_public (drv : Driver) (conf : Char) (s : Sess)
    (a b : List Char) (ha : a ≠ []) (hb : b ≠ []) (hnb : '_' ∉ b) :
    interactive_loop drv ("generate_public=".toList ++ (a ++ '_' :: b)) conf s =
      (if 15 < castU16 (atoiList (a ++ '_' :: b)) ∨ 15 < castU16 (atoiList b) then
        some ⟨false, s, []⟩
      else if drv.exportStatus (castU16 (atoiList (a ++ '_' :: b))) = 0 then
        some ⟨false, s, [ExtCall.pExport (castU16 (atoiList (a ++ '_' :: b))),
          ExtCall.pImport (castU16 (atoiList b))]⟩
      else some ⟨false, s, [ExtCall.pExport (castU16 (atoiList (a ++ '_' :: b)))]⟩) := by
  have harg : afterFirst '=' ("generate_public=".toList ++ (a ++ '_' :: b))
      = some (a ++ '_' :: b) := by
    rw [show "generate_public=".toList ++ (a ++ '_' :: b)
        = "generate_public".toList ++ '=' :: (a ++ '_' :: b) from rfl]
    exact afterFirst_append '=' _ _ (by decide)
  have hlast : afterLast '_' ("generate_public=".toList ++ (a ++ '_' :: b)) = some b := by
    rw [show "generate_public=".toList ++ (a ++ '_' :: b)
        = ("generate_public=".toList ++ a) ++ '_' :: b from by rw [List.append_assoc]]
    exact afterLast_append '_' _ b hnb
  have hlen : ¬ ("generate_public=".toList ++ (a ++ '_' :: b)).length ≤ 18 := by
    rw [List.length_append, show ("generate_public=".toList).length = 16 from by decide,
      List.length_append, List.length_cons]
    have := List.length_pos.mpr ha
    have := List.length_pos.mpr hb
    omega
  simp only [interactive_loop, dispatch_generate_public, genPublicBody, harg, hlast,
    if_neg hlen]

/-! ### Claim theorems -/

/-- Claim C3: in every run of `write_lock_config` or `lock_data` in which
the user declines the y/n confirmation prompt, the corresponding
irreversible external operation (`atecc608a_write_lock_config`,
`atecc608a_lock_data_zone`) is invoked zero times and the interpreter
returns to the loop (`false` sentinel) with the session state unchanged. -/
theorem c3_decline_confirmation_no_side_effect (drv : Driver) (conf : Char) (s : Sess)
    (h : prompt_confirmation conf = false) :
    interactive_loop drv "write_lock_config".toList conf s = some ⟨false, s, []⟩ ∧
    interactive_loop drv "lock_data".toList conf s = some ⟨false, s, []⟩ := by
  have h1 : dispatch "write_lock_config".toList = Cmd.cWriteLockConfig := by decide
  have h2 : dispatch "lock_data".toList = Cmd.cLockData := by decide
  constructor
  · unfold interactive_loop
    rw [h1]
    simp [h]
  · unfold interactive_loop
    rw [h2]
    simp [h]

/-- Witness for C3: declining with the response character `n`. -/
theorem c3_witness :
    interactive_loop okDriver "write_lock_config".toList 'n' sessInit
      = some ⟨false, sessInit, []⟩ ∧
    interactive_loop okDriver "lock_data".toList 'n' sessInit
      = some ⟨false, sessInit, []⟩ :=
  c3_decline_confirmation_no_side_effect okDriver 'n' sessInit (by decide)

/-- Claim C10: for every response read at an irreversible-action
confirmation prompt, `prompt_confirmation` yields `true` exactly when the
first non-whitespace character of the response is `y` or `Y`. -/
theorem c10_prompt_confirmation_yes_iff (resp : List Char) (c : Char)
    (h : scan1s resp = some c) :
    (prompt_confirmation_run resp = some true ↔ (c = 'y' ∨ c = 'Y')) := by
  simp [prompt_confirmation_run, h, prompt_confirmation]

/-- Witness for C10: the response `" n"` whose first non-whitespace
character is `n` does not confirm. -/
theorem c10_witness :
    (prompt_confirmation_run (' ' :: 'n' :: []) = some true ↔ ('n' = 'y' ∨ 'n' = 'Y')) :=
  c10_prompt_confirmation_yes_iff (' ' :: 'n' :: []) 'n' (by decide)

/-- Claim C4 (code bug evidence): the token `private_slotzzzz` is
dispatched to the `private_slot` branch and passes its length threshold,
but contains no `=`, so `strchr` returned `NULL` and the C code evaluates
`atoi(arg + 1)` on a null-derived pointer - undefined behaviour instead of
the `false` return the claim ascribes to every non-`exit` input; the model
accordingly yields `none`. -/
theorem c4_null_deref_on_missing_equals :
    interactive_loop okDriver "private_slotzzzz".toList 'n' sessInit = none := by decide

/-- Claim C6: every token matched by the `generate_public` prefix test
whose length is below the minimal valid template `generate_public=0_9`
(length 19) is rejected, with neither the export nor the import driver
operation invoked and the session state unchanged. -/
theorem c6_short_generate_public_rejected (drv : Driver) (conf : Char) (s : Sess)
    (cmd : List Char) (hpre : cmd.take 14 = "generate_public".toList.take 14)
    (hlen : cmd.length ≤ 18) :
    interactive_loop drv cmd conf s = some ⟨false, s, []⟩ := by
  have hinfo : cmd ≠ "info".toList := by
    intro h
    rw [h] at hpre
    exact absurd hpre (by decide)
  have hexit : cmd ≠ "exit".toList := by
    intro h
    rw [h] at hpre
    exact absurd hpre (by decide)
  have htest : cmd ≠ "test".toList := by
    intro h
    rw [h] at hpre
    exact absurd hpre (by decide)
  have h15 : cmd.take 15 ≠ "generate_private".toList.take 15 := by
    intro h
    have h14 := take_of_take_eq h (by omega : (14:Nat) ≤ 15)
    rw [hpre] at h14
    exact absurd h14 (by decide)
  have hd : dispatch cmd = Cmd.cGeneratePublic := by
    unfold dispatch
    rw [if_neg hinfo, if_neg hexit, if_neg htest, if_neg h15, if_pos hpre]
  simp only [interactive_loop, hd, genPublicBody, if_pos hlen]

/-- Witness for C6: `generate_public=0` (length 17) is rejected with no
driver call. -/
theorem c6_witness :
    interactive_loop okDriver "generate_public=0".toList 'n' sessInit
      = some ⟨false, sessInit, []⟩ :=
  c6_short_generate_public_rejected okDriver 'n' sessInit "generate_public=0".toList
    (by decide) (by decide)

/-- Claim C7: `private_slot=N` for a valid decimal argument N in [0,15]
updates exactly the session private-slot variable and leaves the
public-slot variable untouched (and makes no driver call); symmetrically
for `public_slot=N`. -/
theorem c7_slot_commands_update_exactly_one (drv : Driver) (conf : Char) (s : Sess)
    (ds : List Char) (hne : ds ≠ []) (hdig : ∀ d ∈ ds, isDigitC d)
    (hv : digitsVal ds ≤ 15) :
    interactive_loop drv ("private_slot=".toList ++ ds) conf s
      = some ⟨false, ⟨digitsVal ds, s.pubSlot⟩, []⟩ ∧
    interactive_loop drv ("public_slot=".toList ++ ds) conf s
      = some ⟨false, ⟨s.privSlot, digitsVal ds⟩, []⟩ := by
  have hcast : castU16 (atoiList ds) = digitsVal ds := by
    rw [atoiList_digits ds hne hdig, castU16_of_le (by omega)]
  constructor
  · rw [interactive_loop_private_slot drv conf s ds hne, hcast, if_neg (by omega)]
  · rw [interactive_loop_public_slot drv conf s ds hne, hcast, if_neg (by omega)]

/-- Witness for C7 at N = 3 from the initial session state. -/
theorem c7_witness :
    interactive_loop okDriver ("private_slot=".toList ++ ['3']) 'n' sessInit
      = some ⟨false, ⟨digitsVal ['3'], sessInit.pubSlot⟩, []⟩ ∧
    interactive_loop okDriver ("public_slot=".toList ++ ['3']) 'n' sessInit
      = some ⟨false, ⟨sessInit.privSlot, digitsVal ['3']⟩, []⟩ :=
  c7_slot_commands_update_exactly_one okDriver 'n' sessInit ['3']
    (by decide) (by decide) (by decide)

/-- Claim C5: an accepted `generate_public=A_B` command with decimal
arguments A and B in [0,15] first calls the external export operation with
private slot A and then the external import operation with public slot B,
in that order. -/
theorem c5_generate_public_export_then_import (drv : Driver) (conf : Char) (s : Sess)
    (a b : List Char) (hna : a ≠ []) (hnb : b ≠ [])
    (hda : ∀ d ∈ a, isDigitC d) (hdb : ∀ d ∈ b, isDigitC d)
    (hva : digitsVal a ≤ 15) (hvb : digitsVal b ≤ 15)
    (hexp : drv.exportStatus (digitsVal a) = 0) :
    interactive_loop drv ("generate_public=".toList ++ (a ++ '_' :: b)) conf s
      = some ⟨false, s, [ExtCall.pExport (digitsVal a), ExtCall.pImport (digitsVal b)]⟩ := by
  have hnub : '_' ∉ b := by
    intro hm
    exact absurd (hdb '_' hm) (by decide)
  have hca : castU16 (atoiList (a ++ '_' :: b)) = digitsVal a := by
    rw [atoiList_digits_append (by decide) (by decide) (by decide) (by decide) a b hda,
      castU16_of_le (by omega)]
  have hcb : castU16 (atoiList b) = digitsVal b := by
    rw [atoiList_digits b hnb hdb, castU16_of_le (by omega)]
  rw [interactive_loop_generate_public drv conf s a b hna hnb hnub, hca, hcb,
    if_neg (by omega), if_pos hexp]

/-- Witness for C5: input `generate_public=0_9` yields export with slot 0
followed by import with slot 9. -/
theorem c5_witness :
    interactive_loop okDriver ("generate_public=".toList ++ (['0'] ++ '_' :: ['9'])) 'n'
      sessInit = some ⟨false, sessInit,
        [ExtCall.pExport (digitsVal ['0']), ExtCall.pImport (digitsVal ['9'])]⟩ :=
  c5_generate_public_export_then_import okDriver 'n' sessInit ['0'] ['9']
    (by decide) (by decide) (by decide) (by decide) (by decide) (by decide) (by decide)

/-- `mainLoop` can only ever report the success status 0. -/
lemma mainLoop_status (drv : Driver) :
    ∀ (inputs : List (List Char × Char)) (s : Sess) (k : Nat) (res : Int × Nat),
      mainLoop drv inputs s k = some res → res.1 = 0 := by
  intro inputs
  induction inputs with
  | nil =>
    intro s k res h
    exact absurd h (by simp [mainLoop])
  | cons p rest ih =>
    intro s k res h
    obtain ⟨cmd, conf⟩ := p
    simp only [mainLoop] at h
    split at h
    · exact absurd h (by simp)
    · split at h
      · cases h
        rfl
      · exact ih _ _ _ h

/-- Claim C9: the process exit status of `main` equals the status returned
by `psa_crypto_init`: 0 when initialization succeeds (later test or
command failures do not alter it), and the non-zero initialization error
code when it fails, in which case the interactive loop is entered zero
times. -/
theorem c9_exit_status (drv : Driver) (initStatus : Int)
    (inputs : List (List Char × Char)) (s : Sess) (res : Int × Nat)
    (h : mainRun drv initStatus inputs s = some res) :
    res.1 = initStatus ∧ (initStatus ≠ 0 → res.2 = 0) := by
  unfold mainRun at h
  by_cases h0 : initStatus ≠ 0
  · rw [if_pos h0] at h
    cases h
    exact ⟨rfl, fun _ => rfl⟩
  · rw [if_neg h0] at h
    push_neg at h0
    have h1 := mainLoop_status drv inputs s 0 res h
    exact ⟨by rw [h1, h0], fun hne => absurd h0 hne⟩

/-- Witness for C9: with a failed driver but successful initialization and
the single input `exit`, `main` returns 0 after one iteration. -/
theorem c9_witness :
    ((0 : Int), (1 : Nat)).1 = (0 : Int) ∧ ((0 : Int) ≠ 0 → ((0 : Int), (1 : Nat)).2 = 0) :=
  c9_exit_status okDriver 0 [("exit".toList, 'n')] sessInit (0, 1) (by decide)

/-- Counterexample to C1 as stated: the slot argument 65536 lies outside
[0,15], yet `generate_private=65536` is not rejected - the `(uint16_t)`
cast truncates `atoi`'s result to 65536 mod 2^16 = 0, and the external
generate operation is invoked with slot 0. -/
theorem c1_counterexample :
    interactive_loop okDriver "generate_private=65536".toList 'n' sessInit
      = some ⟨false, sessInit, [ExtCall.pGenerate 0]⟩ := by decide

/-- Claim C1 (amended): the interpreter range-checks the 16-bit truncation
of the `atoi` result, not the written argument: (1) under the session
invariant, every slot value forwarded to an external operation is in
[0,15]; (2) a slot-taking command whose argument truncates to a value
above 15 is rejected with no driver call and no state change, for
`generate_private=`, `private_slot=` and `public_slot=`; (3) likewise for
`generate_public=A_B` when either truncated slot exceeds 15. -/
theorem c1_range_check_truncated :
    (∀ (drv : Driver) (cmd : List Char) (conf : Char) (s : Sess) (r : LoopResult),
      SessInv s → interactive_loop drv cmd conf s = some r →
      ∀ c ∈ r.calls, callSlotOK c) ∧
    (∀ (drv : Driver) (conf : Char) (s : Sess) (t : List Char), t ≠ [] →
      15 < castU16 (atoiList t) →
      interactive_loop drv ("generate_private=".toList ++ t) conf s = some ⟨false, s, []⟩ ∧
      interactive_loop drv ("private_slot=".toList ++ t) conf s = some ⟨false, s, []⟩ ∧
      interactive_loop drv ("public_slot=".toList ++ t) conf s = some ⟨false, s, []⟩) ∧
    (∀ (drv : Driver) (conf : Char) (s : Sess) (a b : List Char),
      a ≠ [] → b ≠ [] → '_' ∉ b →
      (15 < castU16 (atoiList (a ++ '_' :: b)) ∨ 15 < castU16 (atoiList b)) →
      interactive_loop drv ("generate_public=".toList ++ (a ++ '_' :: b)) conf s
        = some ⟨false, s, []⟩) := by
  refine ⟨?_, ?_, ?_⟩
  · intro drv cmd conf s r hs hr c hc
    unfold interactive_loop at hr
    split at hr
    · cases hr
      simp only [List.mem_cons, List.not_mem_nil, or_false] at hc
      subst hc
      trivial
    · cases hr
      simp at hc
    · cases hr
      simp only [List.mem_cons, List.not_mem_nil, or_false] at hc
      subst hc
      exact hs
    · simp only [genPrivateBody] at hr
      rcases ha : afterFirst '=' cmd with _ | t <;> simp only [ha] at hr
      · rw [if_neg (by omega : ¬ (15:Nat) < 0)] at hr
        cases hr
        simp only [List.mem_cons, List.not_mem_nil, or_false] at hc
        subst hc
        simp only [callSlotOK]
        omega
      · by_cases hl : 17 < cmd.length
        · rw [if_pos hl] at hr
          by_cases h15 : 15 < castU16 (atoiList t)
          · rw [if_pos h15] at hr
            cases hr
            simp at hc
          · rw [if_neg h15] at hr
            cases hr
            simp only [List.mem_cons, List.not_mem_nil, or_false] at hc
            subst hc
            simp only [callSlotOK]
            omega
        · rw [if_neg hl, if_neg (by omega : ¬ (15:Nat) < 0)] at hr
          cases hr
          simp only [List.mem_cons, List.not_mem_nil, or_false] at hc
          subst hc
          simp only [callSlotOK]
          omega
    · simp only [genPublicBody] at hr
      split at hr
      · cases hr
        simp at hc
      · split at hr
        · split at hr
          · cases hr
            simp at hc
          · split at hr
            · cases hr
              simp only [List.mem_cons, List.not_mem_nil, or_false] at hc
              rcases hc with hc | hc <;> subst hc <;> simp only [callSlotOK] <;> omega
            · cases hr
              simp only [List.mem_cons, List.not_mem_nil, or_false] at hc
              subst hc
              simp only [callSlotOK]
              omega
        · simp at hr
    · split at hr
      · cases hr
        simp only [List.mem_cons, List.not_mem_nil, or_false] at hc
        subst hc
        trivial
      · cases hr
        simp at hc
    · split at hr
      · cases hr
        simp only [List.mem_cons, List.not_mem_nil, or_false] at hc
        subst hc
        trivial
      · cases hr
        simp at hc
    · simp only [privateSlotBody] at hr
      split at hr
      · cases hr
        simp at hc
      · split at hr
        · simp at hr
        · split at hr
          · cases hr
            simp at hc
          · cases hr
            simp at hc
    · simp only [publicSlotBody] at hr
      split at hr
      · cases hr
        simp at hc
      · split at hr
        · simp at hr
        · split at hr
          · cases hr
            simp at hc
          · cases hr
            simp at hc
    · cases hr
      simp at hc
  · intro drv conf s t hne hgt
    refine ⟨?_, ?_, ?_⟩
    · rw [interactive_loop_generate_private drv conf s t hne, if_pos hgt]
    · rw [interactive_loop_private_slot drv conf s t hne, if_pos hgt]
    · rw [interactive_loop_public_slot drv conf s t hne, if_pos hgt]
  · intro drv conf s a b ha hb hnb hgt
    rw [interactive_loop_generate_public drv conf s a b ha hb hnb, if_pos hgt]

/-- Witness for C1 (amended): the argument 16 truncates to 16 > 15 and all
three single-slot commands reject it with no driver call. -/
theorem c1_witness :
    interactive_loop okDriver ("generate_private=".toList ++ "16".toList) 'n' sessInit
      = some ⟨false, sessInit, []⟩ ∧
    interactive_loop okDriver ("private_slot=".toList ++ "16".toList) 'n' sessInit
      = some ⟨false, sessInit, []⟩ ∧
    interactive_loop okDriver ("public_slot=".toList ++ "16".toList) 'n' sessInit
      = some ⟨false, sessInit, []⟩ :=
  c1_range_check_truncated.2.1 okDriver 'n' sessInit "16".toList (by decide) (by decide)

/-- One interpreter iteration preserves the session-slot invariant. -/
lemma interactive_loop_SessInv (drv : Driver) (cmd : List Char) (conf : Char)
    (s : Sess) (r : LoopResult) (hs : SessInv s)
    (hr : interactive_loop drv cmd conf s = some r) : SessInv r.sess := by
  unfold interactive_loop at hr
  split at hr
  · cases hr
    exact hs
  · cases hr
    exact hs
  · cases hr
    exact hs
  · simp only [genPrivateBody] at hr
    rcases ha : afterFirst '=' cmd with _ | t <;> simp only [ha] at hr
    · rw [if_neg (by omega : ¬ (15:Nat) < 0)] at hr
      cases hr
      exact hs
    · by_cases hl : 17 < cmd.length
      · rw [if_pos hl] at hr
        by_cases h15 : 15 < castU16 (atoiList t)
        · rw [if_pos h15] at hr
          cases hr
          exact hs
        · rw [if_neg h15] at hr
          cases hr
          exact hs
      · rw [if_neg hl, if_neg (by omega : ¬ (15:Nat) < 0)] at hr
        cases hr
        exact hs
  · simp only [genPublicBody] at hr
    split at hr
    · cases hr
      exact hs
    · split at hr
      · split at hr
        · cases hr
          exact hs
        · split at hr
          · cases hr
            exact hs
          · cases hr
            exact hs
      · simp at hr
  · split at hr
    · cases hr
      exact hs
    · cases hr
      exact hs
  · split at hr
    · cases hr
      exact hs
    · cases hr
      exact hs
  · simp only [privateSlotBody] at hr
    split at hr
    · cases hr
      exact hs
    · split at hr
      · simp at hr
      · split at hr
        · cases hr
          exact hs
        · cases hr
          rename_i hle
          constructor
          · show castU16 (atoiList _) ≤ 15
            omega
          · exact hs.2
  · simp only [publicSlotBody] at hr
    split at hr
    · cases hr
      exact hs
    · split at hr
      · simp at hr
      · split at hr
        · cases hr
          exact hs
        · cases hr
          rename_i hle
          constructor
          · exact hs.1
          · show castU16 (atoiList _) ≤ 15
            omega
  · cases hr
    exact hs

/-- Only the `private_slot` and `public_slot` branches can change the
session state. -/
lemma interactive_loop_mutation (drv : Driver) (cmd : List Char) (conf : Char)
    (s : Sess) (r : LoopResult)
    (hr : interactive_loop drv cmd conf s = some r) (hne : r.sess ≠ s) :
    dispatch cmd = Cmd.cPrivateSlot ∨ dispatch cmd = Cmd.cPublicSlot := by
  unfold interactive_loop at hr
  split at hr
  · cases hr
    exact absurd rfl hne
  · cases hr
    exact absurd rfl hne
  · cases hr
    exact absurd rfl hne
  · exfalso
    apply hne
    simp only [genPrivateBody] at hr
    rcases ha : afterFirst '=' cmd with _ | t <;> simp only [ha] at hr
    · rw [if_neg (by omega : ¬ (15:Nat) < 0)] at hr
      cases hr
      rfl
    · by_cases hl : 17 < cmd.length
      · rw [if_pos hl] at hr
        by_cases h15 : 15 < castU16 (atoiList t)
        · rw [if_pos h15] at hr
          cases hr
          rfl
        · rw [if_neg h15] at hr
          cases hr
          rfl
      · rw [if_neg hl, if_neg (by omega : ¬ (15:Nat) < 0)] at hr
        cases hr
        rfl
  · exfalso
    apply hne
    simp only [genPublicBody] at hr
    split at hr
    · cases hr
      rfl
    · split at hr
      · split at hr
        · cases hr
          rfl
        · split at hr
          · cases hr
            rfl
          · cases hr
            rfl
      · simp at hr
  · rename_i hd
    exfalso
    apply hne
    split at hr
    · cases hr
      rfl
    · cases hr
      rfl
  · rename_i hd
    exfalso
    apply hne
    split at hr
    · cases hr
      rfl
    · cases hr
      rfl
  · rename_i hd
    exact Or.inl hd
  · rename_i hd
    exact Or.inr hd
  · cases hr
    exact absurd rfl hne

/-- Any sequence of interpreter iterations preserves the session-slot
invariant. -/
lemma runSession_SessInv (drv : Driver) :
    ∀ (inputs : List (List Char × Char)) (s sfin : Sess),
      SessInv s → runSession drv inputs s = some sfin → SessInv sfin := by
  intro inputs
  induction inputs with
  | nil =>
    intro s sfin hs h
    cases h
    exact hs
  | cons p rest ih =>
    intro s sfin hs h
    obtain ⟨cmd, conf⟩ := p
    simp only [runSession] at h
    split at h
    · simp at h
    · rename_i r hr
      have hinv := interactive_loop_SessInv drv cmd conf s r hs hr
      split at h
      · cases h
        exact hinv
      · exact ih _ _ hinv h

/-- Claim C2: the two session slot variables start at 0 and 9, remain in
[0,15] after startup and after every sequence of interpreter iterations,
and are mutated only by the `private_slot` / `public_slot` branches. -/
theorem c2_session_slots_invariant :
    SessInv sessInit ∧ sessInit.privSlot = 0 ∧ sessInit.pubSlot = 9 ∧
    (∀ (drv : Driver) (inputs : List (List Char × Char)) (sfin : Sess),
      runSession drv inputs sessInit = some sfin → SessInv sfin) ∧
    (∀ (drv : Driver) (cmd : List Char) (conf : Char) (s : Sess) (r : LoopResult),
      interactive_loop drv cmd conf s = some r → r.sess ≠ s →
      dispatch cmd = Cmd.cPrivateSlot ∨ dispatch cmd = Cmd.cPublicSlot) := by
  refine ⟨by constructor <;> decide, rfl, rfl, ?_, ?_⟩
  · intro drv inputs sfin h
    exact runSession_SessInv drv inputs sessInit sfin (by constructor <;> decide) h
  · intro drv cmd conf s r hr hne
    exact interactive_loop_mutation drv cmd conf s r hr hne

/-- Witness for C2: the session reached from startup by
`private_slot=3` then `exit` satisfies the invariant. -/
theorem c2_witness : SessInv ⟨3, 9⟩ :=
  c2_session_slots_invariant.2.2.2.1 okDriver
    [("private_slot=3".toList, 'n'), ("exit".toList, 'n')] ⟨3, 9⟩ (by decide)

/-- Counterexample to C8 as stated: the token `generate_privat` is
dispatched to the `generate_private` branch although its leading
characters do not equal the keyword `generate_private` (the keyword minus
its trailing `=` marker): the source compares only
`strlen("generate_private") - 1 = 15` characters. -/
theorem c8_counterexample :
    dispatch "generate_privat".toList = Cmd.cGeneratePrivate ∧
      "generate_privat".toList.take 16 ≠ "generate_private".toList := by decide

/-- Claim C8 (amended): exact equality dispatches `info`, `exit`, `test`,
`write_lock_config` and `lock_data`; each of the four argument-taking
commands is dispatched exactly when the token's leading characters equal
the first `strlen(keyword) - 1` characters of the keyword (one character
fewer than the keyword minus its `=` marker). -/
theorem c8_dispatch_matching (cmd : List Char) :
    (dispatch cmd = Cmd.cInfo ↔ cmd = "info".toList) ∧
    (dispatch cmd = Cmd.cExit ↔ cmd = "exit".toList) ∧
    (dispatch cmd = Cmd.cTest ↔ cmd = "test".toList) ∧
    (dispatch cmd = Cmd.cWriteLockConfig ↔ cmd = "write_lock_config".toList) ∧
    (dispatch cmd = Cmd.cLockData ↔ cmd = "lock_data".toList) ∧
    (dispatch cmd = Cmd.cGeneratePrivate ↔ cmd.take 15 = "generate_private".toList.take 15) ∧
    (dispatch cmd = Cmd.cGeneratePublic ↔ cmd.take 14 = "generate_public".toList.take 14) ∧
    (dispatch cmd = Cmd.cPrivateSlot ↔ cmd.take 11 = "private_slot".toList.take 11) ∧
    (dispatch cmd = Cmd.cPublicSlot ↔ cmd.take 10 = "public_slot".toList.take 10) := by
  unfold dispatch
  split_ifs with h1 h2 h3 h4 h5 h6 h7 h8 h9
  · subst h1
    decide
  · subst h2
    decide
  · subst h3
    decide
  · have hw : cmd ≠ "write_lock_config".toList := by
      intro h
      rw [h] at h4
      exact absurd h4 (by decide)
    have hl : cmd ≠ "lock_data".toList := by
      intro h
      rw [h] at h4
      exact absurd h4 (by decide)
    have h14 : cmd.take 14 ≠ "generate_public".toList.take 14 := by
      intro h
      have hq := take_of_take_eq h4 (by omega : (14:Nat) ≤ 15)
      rw [h] at hq
      exact absurd hq (by decide)
    have h11 : cmd.take 11 ≠ "private_slot".toList.take 11 := by
      intro h
      have hq := take_of_take_eq h4 (by omega : (11:Nat) ≤ 15)
      rw [h] at hq
      exact absurd hq (by decide)
    have h10 : cmd.take 10 ≠ "public_slot".toList.take 10 := by
      intro h
      have hq := take_of_take_eq h4 (by omega : (10:Nat) ≤ 15)
      rw [h] at hq
      exact absurd hq (by decide)
    exact ⟨iff_of_false (by decide) h1, iff_of_false (by decide) h2,
      iff_of_false (by decide) h3, iff_of_false (by decide) hw,
      iff_of_false (by decide) hl, iff_of_true rfl h4,
      iff_of_false (by decide) h14, iff_of_false (by decide) h11,
      iff_of_false (by decide) h10⟩
  · have hw : cmd ≠ "write_lock_config".toList := by
      intro h
      rw [h] at h5
      exact absurd h5 (by decide)
    have hl : cmd ≠ "lock_data".toList := by
      intro h
      rw [h] at h5
      exact absurd h5 (by decide)
    have h11 : cmd.take 11 ≠ "private_slot".toList.take 11 := by
      intro h
      have hq := take_of_take_eq h5 (by omega : (11:Nat) ≤ 14)
      rw [h] at hq
      exact absurd hq (by decide)
    have h10 : cmd.take 10 ≠ "public_slot".toList.take 10 := by
      intro h
      have hq := take_of_take_eq h5 (by omega : (10:Nat) ≤ 14)
      rw [h] at hq
      exact absurd hq (by decide)
    exact ⟨iff_of_false (by decide) h1, iff_of_false (by decide) h2,
      iff_of_false (by decide) h3, iff_of_false (by decide) hw,
      iff_of_false (by decide) hl, iff_of_false (by decide) h4,
      iff_of_true rfl h5, iff_of_false (by decide) h11,
      iff_of_false (by decide) h10⟩
  · subst h6
    decide
  · subst h7
    decide
  · have h10 : cmd.take 10 ≠ "public_slot".toList.take 10 := by
      intro h
      have hq := take_of_take_eq h8 (by omega : (10:Nat) ≤ 11)
      rw [h] at hq
      exact absurd hq (by decide)
    exact ⟨iff_of_false (by decide) h1, iff_of_false (by decide) h2,
      iff_of_false (by decide) h3, iff_of_false (by decide) h6,
      iff_of_false (by decide) h7, iff_of_false (by decide) h4,
      iff_of_false (by decide) h5, iff_of_true rfl h8,
      iff_of_false (by decide) h10⟩
  · exact ⟨iff_of_false (by decide) h1, iff_of_false (by decide) h2,
      iff_of_false (by decide) h3, iff_of_false (by decide) h6,
      iff_of_false (by decide) h7, iff_of_false (by decide) h4,
      iff_of_false (by decide) h5, iff_of_false (by decide) h8,
      iff_of_true rfl h9⟩
  · exact ⟨iff_of_false (by decide) h1, iff_of_false (by decide) h2,
      iff_of_false (by decide) h3, iff_of_false (by decide) h6,
      iff_of_false (by decide) h7, iff_of_false (by decide) h4,
      iff_of_false (by decide) h5, iff_of_false (by decide) h8,
      iff_of_false (by decide) h9⟩

/-- Witness for C8 (amended): the token `private_slo` already dispatches
to the `private_slot` branch. -/
theorem c8_witness : dispatch "private_slo".toList = Cmd.cPrivateSlot :=
  (c8_dispatch_matching "private_slo".toList).2.2.2.2.2.2.2.1.mpr (by decide)
